import Mathlib

/-!
Verification of the jupyter-agent backend (src/backend) against its
natural-language specification.

The Python sources are shallowly embedded as executable Lean definitions:

* `kernel_manager.py` — `NotebookKernel.execute_cell`'s iopub message loop
  (the spec's Event Normalizer / Session Manager `execute`),
  `KernelManagerService.shutdown_kernel` / `shutdown_all`;
* `ai_agent.py` — `NotebookAgent._build_notebook_context` (Context
  Serializer), `NotebookAgent.analyze_error` (Repair Planner),
  `NotebookAgent._parse_json_response` (Resilient Decoder),
  `NotebookAgent._chat_with_tools_openai` (the tool-executing chat turn);
* `cell_tools.py` — `CellTool.execute_tool` and the five tool handlers.

External effects (the Jupyter kernel process, the reasoning service) are
modelled as explicit inputs: the iopub message stream is a list of typed
messages, a reasoning-service call is an `Except String String` (the reply
text or the raised exception's `str`).  Python dicts whose key sets are
fixed by the code are structures; dynamically keyed dicts (JSON values,
tool arguments/results) are the `PyVal` type below.  Machine-level detail
(asyncio scheduling, real timeouts) is out of scope; a timeout is the end
of the message list.
-/

set_option autoImplicit false

namespace JupyterAgent

/-! ### Data model shared by kernel_manager.py and ai_agent.py -/

/-- One entry of the `outputs` list built by `NotebookKernel.execute_cell`
(kernel_manager.py lines 63-81): a dict tagged by `'type'`.  `content.get`
yields `None` when the key is absent, hence the `Option` fields; the
mime-type `data` mappings are association lists of string representations. -/
inductive Output where
  | execute_result (data : List (String × String)) (execution_count : Option Int)
  | display_data (data : List (String × String))
  | stream (name : Option String) (text : Option String)
deriving DecidableEq, Repr

/-- The error dict built at kernel_manager.py lines 84-88:
`{'ename': content.get('ename'), 'evalue': content.get('evalue'),
'traceback': content.get('traceback', [])}`. -/
structure ErrorInfo where
  ename : Option String
  evalue : Option String
  traceback : List String
deriving DecidableEq, Repr

/-- A typed iopub message as dispatched on `msg['msg_type']` in
`NotebookKernel.execute_cell` (kernel_manager.py lines 57-92).  `other`
stands for any message type the loop does not match (it falls through all
the `elif` branches and is ignored). -/
inductive IOPubMsg where
  | execute_input (execution_count : Option Int)
  | execute_result (data : List (String × String)) (execution_count : Option Int)
  | display_data (data : List (String × String))
  | stream (name : Option String) (text : Option String)
  | error (ename : Option String) (evalue : Option String) (traceback : List String)
  | status (execution_state : String)
  | other (msg_type : String)
deriving DecidableEq, Repr

/-- The result dict returned by `NotebookKernel.execute_cell`
(kernel_manager.py lines 100-106).  The code's failure status is the
string `'error'` (the spec's abstract `failed`); success is `'success'`. -/
structure KResult where
  cell_id : String
  execution_count : Option Int
  outputs : List Output
  error : Option ErrorInfo
  status : String
deriving DecidableEq, Repr

/-! ### NotebookKernel.execute_cell (kernel_manager.py lines 30-106)

The `while True` message loop, with its mutable locals `outputs`, `error`,
`execution_count` threaded as accumulators.  The end of the input list
models `queue.Empty` (the 10-second `get_iopub_msg` timeout) or the
generic `except Exception` handler — both of which just `break`. -/

/-- The message loop of `execute_cell`: one recursive step per received
message, stopping on an idle status event or at the end of the stream. -/
def collect : List IOPubMsg → List Output → Option ErrorInfo → Option Int →
    List Output × Option ErrorInfo × Option Int
  | [], outputs, error, ec => (outputs, error, ec)
  | msg :: rest, outputs, error, ec =>
    match msg with
    | .execute_input c => collect rest outputs error c
    | .execute_result d c => collect rest (outputs ++ [Output.execute_result d c]) error ec
    | .display_data d => collect rest (outputs ++ [Output.display_data d]) error ec
    | .stream n t => collect rest (outputs ++ [Output.stream n t]) error ec
    | .error en ev tb => collect rest outputs (some ⟨en, ev, tb⟩) ec
    | .status es => if es = "idle" then (outputs, error, ec) else collect rest outputs error ec
    | .other _ => collect rest outputs error ec

/-- `NotebookKernel.execute_cell` restricted to its pure content: the event
stream consumed during one execution is the input list; the returned dict
is built at kernel_manager.py lines 100-106
(`'status': 'error' if error else 'success'`). -/
def execute_cell (events : List IOPubMsg) (cell_id : String) : KResult :=
  let r := collect events [] none none
  { cell_id := cell_id
    execution_count := r.2.2
    outputs := r.1
    error := r.2.1
    status := if r.2.1.isSome then "error" else "success" }

/-- The prefix of the event stream that the loop actually examines: every
message before the first idle status event (the idle event itself only
stops the loop and contributes nothing). -/
def consumed : List IOPubMsg → List IOPubMsg
  | [] => []
  | msg :: rest =>
    match msg with
    | .status es => if es = "idle" then [] else msg :: consumed rest
    | _ => msg :: consumed rest

/-- Whether a message is an error event. -/
def isErrorMsg : IOPubMsg → Bool
  | .error _ _ _ => true
  | _ => false

/-- Whether the list contains an error event. -/
def hasErrorEvent (l : List IOPubMsg) : Bool :=
  l.any isErrorMsg

/-- The `ErrorInfo` of the last error event of the list, if any. -/
def lastErr : List IOPubMsg → Option ErrorInfo
  | [] => none
  | msg :: rest =>
    match lastErr rest with
    | some e => some e
    | none =>
      match msg with
      | .error en ev tb => some ⟨en, ev, tb⟩
      | _ => none

/-- Decidable form of "every error event of the list carries a non-empty
traceback" (the interpreter-side contract assumed by the spec's
"executing code that raises yields a non-empty traceback"). -/
def errTracebacksNonempty (l : List IOPubMsg) : Bool :=
  l.all fun m =>
    match m with
    | .error _ _ tb => !tb.isEmpty
    | _ => true

/-- The value of the loop's `error` local after consuming `l`, starting
from `err`: the last error event of `l` if any, else `err`. -/
def withDefaultErr (l : List IOPubMsg) (err : Option ErrorInfo) : Option ErrorInfo :=
  match lastErr l with
  | some e => some e
  | none => err

theorem withDefaultErr_cons_error (en ev : Option String) (tb : List String)
    (l : List IOPubMsg) (err : Option ErrorInfo) :
    withDefaultErr (IOPubMsg.error en ev tb :: l) err = withDefaultErr l (some ⟨en, ev, tb⟩) := by
  simp only [withDefaultErr, lastErr]
  cases lastErr l <;> rfl

theorem withDefaultErr_cons_of_not_error (msg : IOPubMsg) (hmsg : isErrorMsg msg = false)
    (l : List IOPubMsg) (err : Option ErrorInfo) :
    withDefaultErr (msg :: l) err = withDefaultErr l err := by
  simp only [withDefaultErr, lastErr]
  cases lastErr l with
  | some e => rfl
  | none => cases msg <;> simp_all [isErrorMsg]

theorem collect_error_eq (events : List IOPubMsg) (outputs : List Output)
    (error : Option ErrorInfo) (ec : Option Int) :
    (collect events outputs error ec).2.1 = withDefaultErr (consumed events) error := by
  induction events generalizing outputs error ec with
  | nil => simp [collect, consumed, withDefaultErr, lastErr]
  | cons msg rest ih =>
    cases msg with
    | execute_input c =>
      rw [show collect (IOPubMsg.execute_input c :: rest) outputs error ec
            = collect rest outputs error c from rfl,
        ih, show consumed (IOPubMsg.execute_input c :: rest)
            = IOPubMsg.execute_input c :: consumed rest from rfl,
        withDefaultErr_cons_of_not_error (IOPubMsg.execute_input c) rfl]
    | execute_result d c =>
      rw [show collect (IOPubMsg.execute_result d c :: rest) outputs error ec
            = collect rest (outputs ++ [Output.execute_result d c]) error ec from rfl,
        ih, show consumed (IOPubMsg.execute_result d c :: rest)
            = IOPubMsg.execute_result d c :: consumed rest from rfl,
        withDefaultErr_cons_of_not_error (IOPubMsg.execute_result d c) rfl]
    | display_data d =>
      rw [show collect (IOPubMsg.display_data d :: rest) outputs error ec
            = collect rest (outputs ++ [Output.display_data d]) error ec from rfl,
        ih, show consumed (IOPubMsg.display_data d :: rest)
            = IOPubMsg.display_data d :: consumed rest from rfl,
        withDefaultErr_cons_of_not_error (IOPubMsg.display_data d) rfl]
    | stream n t =>
      rw [show collect (IOPubMsg.stream n t :: rest) outputs error ec
            = collect rest (outputs ++ [Output.stream n t]) error ec from rfl,
        ih, show consumed (IOPubMsg.stream n t :: rest)
            = IOPubMsg.stream n t :: consumed rest from rfl,
        withDefaultErr_cons_of_not_error (IOPubMsg.stream n t) rfl]
    | error en ev tb =>
      rw [show collect (IOPubMsg.error en ev tb :: rest) outputs error ec
            = collect rest outputs (some ⟨en, ev, tb⟩) ec from rfl,
        ih, show consumed (IOPubMsg.error en ev tb :: rest)
            = IOPubMsg.error en ev tb :: consumed rest from rfl,
        withDefaultErr_cons_error]
    | status es =>
      by_cases h : es = "idle"
      · subst h
        rw [show collect (IOPubMsg.status "idle" :: rest) outputs error ec
              = (outputs, error, ec) from rfl,
          show consumed (IOPubMsg.status "idle" :: rest) = [] from rfl]
        simp [withDefaultErr, lastErr]
      · rw [show collect (IOPubMsg.status es :: rest) outputs error ec
              = if es = "idle" then (outputs, error, ec)
                else collect rest outputs error ec from rfl]
        simp only [h, if_false]
        rw [ih, show consumed (IOPubMsg.status es :: rest)
              = if es = "idle" then []
                else IOPubMsg.status es :: consumed rest from rfl]
        simp only [h, if_false]
        rw [withDefaultErr_cons_of_not_error (IOPubMsg.status es) rfl]
    | other t =>
      rw [show collect (IOPubMsg.other t :: rest) outputs error ec
            = collect rest outputs error ec from rfl,
        ih, show consumed (IOPubMsg.other t :: rest)
            = IOPubMsg.other t :: consumed rest from rfl,
        withDefaultErr_cons_of_not_error (IOPubMsg.other t) rfl]

theorem lastErr_isSome_iff_hasErrorEvent (l : List IOPubMsg) :
    (lastErr l).isSome = hasErrorEvent l := by
  induction l with
  | nil => simp [lastErr, hasErrorEvent]
  | cons msg rest ih =>
    rw [hasErrorEvent] at ih
    simp only [lastErr, hasErrorEvent, List.any_cons]
    cases h : lastErr rest with
    | some e =>
      have hre : rest.any isErrorMsg = true := by rw [← ih, h]; rfl
      simp [hre]
    | none =>
      have hre : rest.any isErrorMsg = false := by rw [← ih, h]; rfl
      cases msg <;> simp [isErrorMsg, hre]

theorem lastErr_mem {l : List IOPubMsg} {e : ErrorInfo} (h : lastErr l = some e) :
    IOPubMsg.error e.ename e.evalue e.traceback ∈ l := by
  induction l with
  | nil => simp [lastErr] at h
  | cons msg rest ih =>
    simp only [lastErr] at h
    cases hr : lastErr rest with
    | some e' =>
      rw [hr] at h
      exact List.mem_cons_of_mem _ (ih (hr.trans h))
    | none =>
      rw [hr] at h
      cases msg with
      | error en ev tb =>
        have he : (⟨en, ev, tb⟩ : ErrorInfo) = e := by simpa using h
        subst he
        simp
      | execute_input c => simp at h
      | execute_result d c => simp at h
      | display_data d => simp at h
      | stream n t => simp at h
      | status es => simp at h
      | other t => simp at h

/-- The captured error of an execution is exactly the last error event of
the consumed prefix of the stream. -/
theorem execute_cell_error_eq_lastErr (events : List IOPubMsg) (cell_id : String) :
    (execute_cell events cell_id).error = lastErr (consumed events) := by
  have h := collect_error_eq events [] none none
  simp only [execute_cell]
  rw [h, withDefaultErr]
  cases lastErr (consumed events) <;> rfl

/-- C1: for every execution, the result of `execute_cell` has status
`'error'` (the code's spelling of the spec's `failed`) iff an ErrorInfo was
captured from an error event of the consumed stream; with no error event
the status is `'success'` and `error` is `None`; and when error events
occur and every error event carries a non-empty traceback (the interpreter
contract for raising code), the captured ErrorInfo has a non-empty
traceback. -/
theorem C1_execute_cell_status_spec (events : List IOPubMsg) (cell_id : String) :
    (((execute_cell events cell_id).status = "error")
        ↔ hasErrorEvent (consumed events) = true) ∧
    (hasErrorEvent (consumed events) = false →
      (execute_cell events cell_id).status = "success"
        ∧ (execute_cell events cell_id).error = none) ∧
    (errTracebacksNonempty (consumed events) = true →
      hasErrorEvent (consumed events) = true →
      ∃ e, (execute_cell events cell_id).error = some e ∧ e.traceback ≠ []) := by
  have herr := execute_cell_error_eq_lastErr events cell_id
  have hs : (execute_cell events cell_id).status
      = if (execute_cell events cell_id).error.isSome then "error" else "success" := rfl
  rw [herr, lastErr_isSome_iff_hasErrorEvent] at hs
  refine ⟨?_, ?_, ?_⟩
  · cases h : hasErrorEvent (consumed events) with
    | true => simp [hs, h]
    | false =>
      simp only [hs, h, if_false]
      constructor
      · intro habs
        exact absurd habs (by decide)
      · intro habs
        exact absurd habs (by decide)
  · intro h
    refine ⟨by simp [hs, h], ?_⟩
    rw [herr]
    have : (lastErr (consumed events)).isSome = false := by
      rw [lastErr_isSome_iff_hasErrorEvent, h]
    exact Option.not_isSome_iff_eq_none.mp (by simp [this])
  · intro htb h
    have : (lastErr (consumed events)).isSome = true := by
      rw [lastErr_isSome_iff_hasErrorEvent, h]
    obtain ⟨e, he⟩ := Option.isSome_iff_exists.mp this
    refine ⟨e, by rw [herr, he], ?_⟩
    have hmem := lastErr_mem he
    rw [errTracebacksNonempty, List.all_eq_true] at htb
    have := htb _ hmem
    simp only [Bool.not_eq_true'] at this
    intro habs
    rw [habs] at this
    simp [List.isEmpty] at this

theorem C1_execute_cell_status_spec_witness :
    (execute_cell
        [IOPubMsg.execute_input (some 1),
         IOPubMsg.error (some "ZeroDivisionError") (some "division by zero") ["Traceback line 1"],
         IOPubMsg.status "idle"] "u1").status = "error" ∧
    (∃ e, (execute_cell
        [IOPubMsg.execute_input (some 1),
         IOPubMsg.error (some "ZeroDivisionError") (some "division by zero") ["Traceback line 1"],
         IOPubMsg.status "idle"] "u1").error = some e ∧ e.traceback ≠ []) ∧
    (execute_cell
        [IOPubMsg.execute_input (some 1),
         IOPubMsg.stream (some "stdout") (some "ok"),
         IOPubMsg.status "idle"] "u1").status = "success" ∧
    (execute_cell
        [IOPubMsg.execute_input (some 1),
         IOPubMsg.stream (some "stdout") (some "ok"),
         IOPubMsg.status "idle"] "u1").error = none :=
  ⟨(C1_execute_cell_status_spec _ "u1").1.mpr (by decide),
   (C1_execute_cell_status_spec
      [IOPubMsg.execute_input (some 1),
       IOPubMsg.error (some "ZeroDivisionError") (some "division by zero") ["Traceback line 1"],
       IOPubMsg.status "idle"] "u1").2.2 (by decide) (by decide),
   ((C1_execute_cell_status_spec
      [IOPubMsg.execute_input (some 1),
       IOPubMsg.stream (some "stdout") (some "ok"),
       IOPubMsg.status "idle"] "u1").2.1 (by decide)).1,
   ((C1_execute_cell_status_spec
      [IOPubMsg.execute_input (some 1),
       IOPubMsg.stream (some "stdout") (some "ok"),
       IOPubMsg.status "idle"] "u1").2.1 (by decide)).2⟩

/-- C3: the claim says a stream that ends without an idle status event must
yield an explicit incomplete-result marker, never a bare success.  The code
(kernel_manager.py lines 94-106) breaks out of the loop on `queue.Empty`
and returns the very same record shape as a completed run: on the stream
below, which ends without an idle event, the result is byte-for-byte equal
to the result of the idle-terminated stream, with `status = 'success'`,
`error = None`, and no incompleteness marker of any kind (the returned dict
has no such field). -/
theorem C3_timeout_returns_bare_success :
    execute_cell
        [IOPubMsg.execute_input (some 2),
         IOPubMsg.stream (some "stdout") (some "partial output")] "u1"
      = execute_cell
        [IOPubMsg.execute_input (some 2),
         IOPubMsg.stream (some "stdout") (some "partial output"),
         IOPubMsg.status "idle"] "u1" ∧
    (execute_cell
        [IOPubMsg.execute_input (some 2),
         IOPubMsg.stream (some "stdout") (some "partial output")] "u1").status = "success" ∧
    (execute_cell
        [IOPubMsg.execute_input (some 2),
         IOPubMsg.stream (some "stdout") (some "partial output")] "u1").error = none :=
  ⟨rfl, rfl, rfl⟩

/-- C5 counterexample: on a stream with two error events, the code keeps
the SECOND event's name, message and traceback — the error dict is
reassigned wholesale at kernel_manager.py lines 84-88 — rather than keeping
the first event's name and appending the second's content to the
traceback, as the claim states. -/
theorem C5_counterexample :
    (execute_cell
        [IOPubMsg.error (some "NameError") (some "first message") ["tb-first"],
         IOPubMsg.error (some "TypeError") (some "second message") ["tb-second"],
         IOPubMsg.status "idle"] "u1").error
      = some ⟨some "TypeError", some "second message", ["tb-second"]⟩ ∧
    some (⟨some "TypeError", some "second message", ["tb-second"]⟩ : ErrorInfo)
      ≠ some (⟨some "NameError", some "first message", ["tb-first", "tb-second"]⟩ : ErrorInfo) :=
  ⟨rfl, by decide⟩

/-- C5 (amended): at most one ErrorInfo is captured per execution (the
`error` field is a single optional record), and subsequent error events in
the same execution replace the record entirely — the captured ErrorInfo is
exactly that of the LAST error event of the consumed stream (last error
wins), not the first with an appended traceback. -/
theorem C5_last_error_wins (events : List IOPubMsg) (cell_id : String) :
    (execute_cell events cell_id).error = lastErr (consumed events) :=
  execute_cell_error_eq_lastErr events cell_id

/-! ### KernelManagerService (kernel_manager.py lines 130-158)

The session registry `self.kernels : Dict[str, NotebookKernel]` is an
association list with unique keys (Python dict).  A kernel object is
reduced to the state `execute_cell` reads (`kernel_id`, `is_running`);
the jupyter_client process handle is out of scope.  `shutdown_kernel` and
`shutdown_all` are async functions that either return `None` or raise, so
they are embedded with result type `Except String Registry` carrying the
new registry state; a faithful translation produces `.ok` on every path. -/

/-- The per-session state of a `NotebookKernel` object. -/
structure NKernel where
  kernel_id : String
  is_running : Bool
deriving DecidableEq, Repr

/-- `NotebookKernel.shutdown` (kernel_manager.py lines 120-127): stops the
channels and marks the kernel not running. -/
def NKernel.shutdown (k : NKernel) : NKernel :=
  { k with is_running := false }

/-- The `KernelManagerService.kernels` dict. -/
def Registry := List (String × NKernel)

/-- `self.kernels.get(kernel_id)`. -/
def registryGet (r : Registry) (kid : String) : Option NKernel :=
  ((r : List (String × NKernel)).find? (fun p => p.1 == kid)).map Prod.snd

/-- `del self.kernels[kernel_id]` (dict keys are unique, so deleting the
key is filtering it out). -/
def registryDel (r : Registry) (kid : String) : Registry :=
  (r : List (String × NKernel)).filter (fun p => !(p.1 == kid))

/-- `KernelManagerService.shutdown_kernel` (kernel_manager.py lines
148-153): look the id up with `.get`; when present, shut the kernel down
and delete the entry; when absent, fall through the `if` and return
normally — no exception is raised on either path. -/
def shutdown_kernel (r : Registry) (kid : String) : Except String Registry :=
  match registryGet r kid with
  | some _ => Except.ok (registryDel r kid)
  | none => Except.ok r

/-- `KernelManagerService.shutdown_all` (kernel_manager.py lines 155-158):
`for kernel_id in list(self.kernels.keys()): await self.shutdown_kernel(kernel_id)`. -/
def shutdown_all (r : Registry) : Except String Registry :=
  ((r : List (String × NKernel)).map Prod.fst).foldlM
    (fun acc kid => shutdown_kernel acc kid) r

/-- The HTTP route `DELETE /kernel/{kernel_id}` (main.py lines 103-111):
unlike the restart/interrupt/execute routes it performs no existence
check, so it returns the success payload for unknown ids as well; `.error`
would be the 500 response produced by the `except` clause. -/
def route_shutdown_kernel (r : Registry) (kid : String) :
    Except (Nat × String) (List (String × String) × Registry) :=
  match shutdown_kernel r kid with
  | Except.ok r' => Except.ok ([("status", "shutdown"), ("kernel_id", kid)], r')
  | Except.error e => Except.error (500, e)

theorem filter_ne_key_eq_self (l : List (String × NKernel)) (kid : String)
    (h : ∀ p ∈ l, ¬ (p.1 == kid) = true) :
    l.filter (fun p => !(p.1 == kid)) = l := by
  induction l with
  | nil => rfl
  | cons p t ih =>
    rw [List.filter_cons]
    have hp := h p (List.mem_cons_self p t)
    simp only [Bool.not_eq_true'] at hp
    simp [hp, ih fun q hq => h q (List.mem_cons_of_mem p hq)]

theorem shutdown_kernel_eq_filter (r : Registry) (kid : String) :
    shutdown_kernel r kid = Except.ok (registryDel r kid) := by
  rw [shutdown_kernel]
  cases h : registryGet r kid with
  | some k => rfl
  | none =>
    have hfind : (r : List (String × NKernel)).find? (fun p => p.1 == kid) = none := by
      rw [registryGet] at h
      cases hf : (r : List (String × NKernel)).find? (fun p => p.1 == kid) with
      | some p => rw [hf] at h; simp at h
      | none => rfl
    have : registryDel r kid = r := by
      rw [registryDel]
      exact filter_ne_key_eq_self _ kid (List.find?_eq_none.mp hfind)
    rw [this]

theorem registryGet_registryDel (r : Registry) (kid : String) :
    registryGet (registryDel r kid) kid = none := by
  rw [registryGet, registryDel]
  induction (r : List (String × NKernel)) with
  | nil => rfl
  | cons p t ih =>
    rw [List.filter_cons]
    cases h : (p.1 == kid) with
    | true => simp only [h, Bool.not_true, Bool.false_eq_true, if_false]; exact ih
    | false =>
      simp only [h, Bool.not_false, if_true]
      rw [List.find?_cons_of_neg _ (by simp [h])]
      exact ih

theorem foldl_filter_all_keys (ks : List String) (acc : List (String × NKernel))
    (h : ∀ p ∈ acc, p.1 ∈ ks) :
    ks.foldl (fun a kid => a.filter (fun p => !(p.1 == kid))) acc = [] := by
  induction ks generalizing acc with
  | nil =>
    cases acc with
    | nil => rfl
    | cons p t => exact absurd (h p (List.mem_cons_self p t)) (by simp)
  | cons k rest ih =>
    rw [List.foldl_cons]
    refine ih _ ?_
    intro p hp
    rw [List.mem_filter] at hp
    have hk := h p hp.1
    have hne : p.1 ≠ k := by
      intro habs
      rw [habs] at hp
      simp at hp
    rcases List.mem_cons.mp hk with hl | hr
    · exact absurd hl hne
    · exact hr

theorem shutdown_all_empties (r : Registry) : shutdown_all r = Except.ok [] := by
  rw [shutdown_all]
  have step : ∀ (ks : List String) (acc : Registry),
      ks.foldlM (fun a kid => shutdown_kernel a kid) acc
        = Except.ok (ks.foldl (fun a kid =>
            (a : List (String × NKernel)).filter (fun p => !(p.1 == kid))) acc) := by
    intro ks
    induction ks with
    | nil => intro acc; rfl
    | cons k rest ih =>
      intro acc
      rw [List.foldlM_cons, shutdown_kernel_eq_filter]
      simpa [registryDel] using ih (registryDel acc k)
  rw [step]
  rw [foldl_filter_all_keys _ _ (fun p hp => List.mem_map_of_mem Prod.fst hp)]

/-- C6 counterexample: a direct single `shutdown_kernel` call — and the
HTTP delete route above it — on an id absent from the registry is a silent
no-op returning normally (the route even answers with the success
payload); no `SessionNotFoundError` or any other error is raised, contrary
to the claim. -/
theorem C6_counterexample :
    shutdown_kernel ([] : Registry) "missing-id" = Except.ok ([] : Registry) ∧
    route_shutdown_kernel ([] : Registry) "missing-id"
      = Except.ok ([("status", "shutdown"), ("kernel_id", "missing-id")], ([] : Registry)) :=
  ⟨rfl, rfl⟩

/-- C6 (amended): shutting down an already-absent session is a no-op and
never an error at BOTH paths — the direct single `shutdown_kernel` call
returns normally leaving the registry unchanged (no `SessionNotFoundError`
exists in the code), and `shutdown_all` never errors; for every id
present, `shutdown_kernel` removes the session from the registry, and
`shutdown_all` empties the registry. -/
theorem C6_shutdown_registry_spec (r : Registry) (kid : String) :
    (registryGet r kid = none → shutdown_kernel r kid = Except.ok r) ∧
    (∀ k, registryGet r kid = some k →
      shutdown_kernel r kid = Except.ok (registryDel r kid)
        ∧ registryGet (registryDel r kid) kid = none) ∧
    shutdown_all r = Except.ok [] := by
  refine ⟨?_, ?_, shutdown_all_empties r⟩
  · intro h
    rw [shutdown_kernel, h]
  · intro k h
    exact ⟨by rw [shutdown_kernel, h], registryGet_registryDel r kid⟩

theorem C6_shutdown_registry_spec_witness :
    shutdown_kernel [("k1", ⟨"k1", true⟩)] "absent" = Except.ok [("k1", ⟨"k1", true⟩)] ∧
    shutdown_kernel [("k1", ⟨"k1", true⟩)] "k1" = Except.ok ([] : Registry) ∧
    registryGet ([] : Registry) "k1" = none ∧
    shutdown_all [("k1", ⟨"k1", true⟩)] = Except.ok ([] : Registry) := by
  have h := C6_shutdown_registry_spec [("k1", ⟨"k1", true⟩)] "absent"
  have h2 := C6_shutdown_registry_spec [("k1", ⟨"k1", true⟩)] "k1"
  refine ⟨h.1 rfl, ?_, ?_, h2.2.2⟩
  · have := (h2.2.1 ⟨"k1", true⟩ rfl).1
    rw [this]
    rfl
  · have := (h2.2.1 ⟨"k1", true⟩ rfl).2
    simpa [registryDel] using this

/-! ### Python/JSON values and json.loads

`PyVal` is the value universe for dynamically keyed Python data: what
`json.loads` returns and what tool arguments/results are.  `loads` models
`json.loads` restricted to: integer numerals (no fraction or exponent),
string escapes for quote, backslash, slash, n, t, r, b, f (no `\u`), and
the standard atoms and containers.  Inputs outside this subset fail to
parse; every universal statement about the decoder takes `loads s = some v`
as a hypothesis, so the restriction only narrows the verified payload
class, never misreports a behaviour. -/

inductive PyVal where
  | none
  | bool (b : Bool)
  | int (n : Int)
  | str (s : String)
  | list (elems : List PyVal)
  | dict (fields : List (String × PyVal))

/-- The backtick character (written by code to keep it out of source text). -/
def backtick : Char := Char.ofNat 96

/-- Opening curly brace. -/
def lbraceChar : Char := Char.ofNat 123

/-- Closing curly brace. -/
def rbraceChar : Char := Char.ofNat 125

/-- Whitespace in the sense of both `\s` (for the regexes; `\f`/`\v` are
omitted, none of the inputs reasoned about contain them) and the JSON
grammar. -/
def isWsChar (c : Char) : Bool :=
  c == ' ' || c == '\n' || c == '\t' || c == '\r'

/-- Drop leading whitespace. -/
def skipWs (cs : List Char) : List Char :=
  cs.dropWhile isWsChar

/-- Trim whitespace from both ends. -/
def trimWs (cs : List Char) : List Char :=
  ((cs.dropWhile isWsChar).reverse.dropWhile isWsChar).reverse

/-- `startsWith pre l`: `pre` is an initial segment of `l`. -/
def startsWith : List Char → List Char → Bool
  | [], _ => true
  | _ :: _, [] => false
  | c :: p, d :: l => c == d && startsWith p l

/-- Index of the first occurrence of `needle` as a contiguous substring of
`hay` (the semantics of `re.search` with a literal pattern). -/
def findSubstrIdx (hay needle : List Char) : Option Nat :=
  if startsWith needle hay then some 0
  else
    match hay with
    | [] => Option.none
    | _ :: t => (findSubstrIdx t needle).map (· + 1)

/-- Substring containment test. -/
def containsSubstr (hay needle : List Char) : Bool :=
  (findSubstrIdx hay needle).isSome

/-- String body parser: characters after the opening quote, up to the
closing quote, with the modelled escapes; returns the decoded characters
and the remainder after the closing quote. -/
def parseStringAux : List Char → List Char → Option (List Char × List Char)
  | _, [] => Option.none
  | acc, c :: rest =>
    if c == '"' then some (acc.reverse, rest)
    else if c == '\\' then
      match rest with
      | [] => Option.none
      | e :: rest2 =>
        if e == '"' then parseStringAux ('"' :: acc) rest2
        else if e == '\\' then parseStringAux ('\\' :: acc) rest2
        else if e == '/' then parseStringAux ('/' :: acc) rest2
        else if e == 'n' then parseStringAux ('\n' :: acc) rest2
        else if e == 't' then parseStringAux ('\t' :: acc) rest2
        else if e == 'r' then parseStringAux ('\r' :: acc) rest2
        else if e == 'b' then parseStringAux (Char.ofNat 8 :: acc) rest2
        else if e == 'f' then parseStringAux (Char.ofNat 12 :: acc) rest2
        else Option.none
    else parseStringAux (c :: acc) rest

/-- Digits-to-number accumulator. -/
def natOfDigits (ds : List Char) : Nat :=
  ds.foldl (fun a c => a * 10 + (c.toNat - 48)) 0

/-- Integer numeral parser (optional minus sign, one or more digits, and
no fraction/exponent continuation). -/
def parseNumberFrom (cs : List Char) : Option (PyVal × List Char) :=
  match cs with
  | '-' :: rest =>
    let ds := rest.takeWhile Char.isDigit
    let tail := rest.dropWhile Char.isDigit
    if ds.isEmpty then Option.none
    else if startsWith ['.'] tail || startsWith ['e'] tail || startsWith ['E'] tail then
      Option.none
    else some (PyVal.int (-(natOfDigits ds : Int)), tail)
  | _ =>
    let ds := cs.takeWhile Char.isDigit
    let tail := cs.dropWhile Char.isDigit
    if ds.isEmpty then Option.none
    else if startsWith ['.'] tail || startsWith ['e'] tail || startsWith ['E'] tail then
      Option.none
    else some (PyVal.int (natOfDigits ds), tail)

mutual

/-- JSON value parser (fuel-indexed; the fuel only bounds recursion depth
and `loads` supplies enough of it for any input). -/
def parseVal : Nat → List Char → Option (PyVal × List Char)
  | 0, _ => Option.none
  | Nat.succ fuel, cs =>
    match skipWs cs with
    | [] => Option.none
    | c :: rest =>
      if c == 'n' then
        if startsWith ['u', 'l', 'l'] rest then some (PyVal.none, rest.drop 3) else Option.none
      else if c == 't' then
        if startsWith ['r', 'u', 'e'] rest then some (PyVal.bool true, rest.drop 3)
        else Option.none
      else if c == 'f' then
        if startsWith ['a', 'l', 's', 'e'] rest then some (PyVal.bool false, rest.drop 4)
        else Option.none
      else if c == '"' then
        (parseStringAux [] rest).map (fun p => (PyVal.str (String.mk p.1), p.2))
      else if c == lbraceChar then parseObjBody fuel rest
      else if c == '[' then parseArrBody fuel rest
      else if c == '-' || c.isDigit then parseNumberFrom (c :: rest)
      else Option.none

/-- Object parser, after the opening brace has been consumed. -/
def parseObjBody : Nat → List Char → Option (PyVal × List Char)
  | 0, _ => Option.none
  | Nat.succ fuel, cs =>
    match skipWs cs with
    | [] => Option.none
    | c :: rest =>
      if c == rbraceChar then some (PyVal.dict [], rest)
      else (parseFields fuel (c :: rest)).map (fun p => (PyVal.dict p.1, p.2))

/-- One or more comma-separated `"key": value` members, up to and
including the closing brace. -/
def parseFields : Nat → List Char → Option (List (String × PyVal) × List Char)
  | 0, _ => Option.none
  | Nat.succ fuel, cs =>
    match skipWs cs with
    | '"' :: rest =>
      match parseStringAux [] rest with
      | some (key, afterKey) =>
        match skipWs afterKey with
        | ':' :: afterColon =>
          match parseVal fuel afterColon with
          | some (v, afterVal) =>
            match skipWs afterVal with
            | ',' :: afterComma =>
              (parseFields fuel afterComma).map
                (fun p => ((String.mk key, v) :: p.1, p.2))
            | d :: afterBrace =>
              if d == rbraceChar then some ([(String.mk key, v)], afterBrace)
              else Option.none
            | [] => Option.none
          | Option.none => Option.none
        | _ => Option.none
      | Option.none => Option.none
    | _ => Option.none

/-- Array parser, after the opening bracket has been consumed. -/
def parseArrBody : Nat → List Char → Option (PyVal × List Char)
  | 0, _ => Option.none
  | Nat.succ fuel, cs =>
    match skipWs cs with
    | [] => Option.none
    | c :: rest =>
      if c == ']' then some (PyVal.list [], rest)
      else (parseElems fuel (c :: rest)).map (fun p => (PyVal.list p.1, p.2))

/-- One or more comma-separated array elements, up to and including the
closing bracket. -/
def parseElems : Nat → List Char → Option (List PyVal × List Char)
  | 0, _ => Option.none
  | Nat.succ fuel, cs =>
    match parseVal fuel cs with
    | some (v, afterVal) =>
      match skipWs afterVal with
      | ',' :: afterComma => (parseElems fuel afterComma).map (fun p => (v :: p.1, p.2))
      | ']' :: afterBracket => some ([v], afterBracket)
      | _ => Option.none
    | Option.none => Option.none

end

/-- `json.loads` on the modelled subset: parse one value, then require
only trailing whitespace (Python raises `JSONDecodeError: Extra data`
otherwise, modelled as `Option.none`). -/
def loads (cs : List Char) : Option PyVal :=
  match parseVal (3 * cs.length + 3) cs with
  | some (v, rest) => if (skipWs rest).isEmpty then some v else Option.none
  | Option.none => Option.none

/-! ### NotebookAgent._parse_json_response (ai_agent.py lines 410-428) -/

/-- The literal pattern of the fenced-block regex. -/
def fenceJsonChars : List Char := "```json".data

/-- A closing fence. -/
def fenceChars : List Char := "```".data

/-- The fenced-block extraction
`re.search(r'```json\s*(.*?)\s*```', response, re.DOTALL)` followed by
`.group(1)`.  The regex takes the leftmost match: the first occurrence of
the literal "```json"; the non-greedy group then ends at the FIRST
following "```", and the surrounding `\s*` strip the whitespace at both
ends of the enclosed contents.  If no "```" follows the first "```json"
there is no match at all: any later "```json" occurrence contains "```"
itself and must start at least 7 characters after the first one, so it
would have provided a closing fence for the first — hence no retry at
later occurrences is needed. -/
def extractFenced (resp : List Char) : Option (List Char) :=
  match findSubstrIdx resp fenceJsonChars with
  | some i =>
    match findSubstrIdx (resp.drop (i + 7)) fenceChars with
    | some j => some (trimWs ((resp.drop (i + 7)).take j))
    | Option.none => Option.none
  | Option.none => Option.none

/-- The fallback regex `re.search(r'\x7b.*\x7d', response, re.DOTALL)`:
greedy, so it spans from the FIRST opening brace to the LAST closing
brace of the text (not the first balanced brace-delimited substring). -/
def braceSearch (cs : List Char) : Option (List Char) :=
  match cs.findIdx? (fun c => c == lbraceChar) with
  | some i =>
    match cs.reverse.findIdx? (fun c => c == rbraceChar) with
    | some jr =>
      let j := cs.length - 1 - jr
      if i < j then some ((cs.drop i).take (j - i + 1)) else Option.none
    | Option.none => Option.none
  | Option.none => Option.none

/-- `NotebookAgent._parse_json_response`: if a fenced block is present,
`response` is reassigned to the block contents; then `json.loads` on the
(possibly reassigned) text; on failure, the greedy brace span of the same
text; a failure there raises (`json.JSONDecodeError` from the last
`json.loads`, or `ValueError("Could not parse JSON from response")` when
no brace span exists), modelled as `Except.error`. -/
def parse_json_response_chars (response : List Char) : Except String PyVal :=
  let r : List Char :=
    match extractFenced response with
    | some block => block
    | Option.none => response
  match loads r with
  | some v => Except.ok v
  | Option.none =>
    match braceSearch r with
    | some sub =>
      match loads sub with
      | some v => Except.ok v
      | Option.none => Except.error "JSONDecodeError"
    | Option.none => Except.error "Could not parse JSON from response"

/-- `NotebookAgent._parse_json_response` on a Python string. -/
def parse_json_response (response : String) : Except String PyVal :=
  parse_json_response_chars response.data

/-! ### Lemmas for the Resilient Decoder (claim C9) -/

theorem startsWith_self_append (l t : List Char) : startsWith l (l ++ t) = true := by
  induction l with
  | nil => rfl
  | cons c p ih => simp [startsWith, ih]

theorem findSubstrIdx_def (hay needle : List Char) :
    findSubstrIdx hay needle =
      if startsWith needle hay then some 0
      else
        match hay with
        | [] => Option.none
        | _ :: t => (findSubstrIdx t needle).map (· + 1) := by
  cases hay <;> rfl

theorem findSubstrIdx_append_self (n t : List Char) : findSubstrIdx (n ++ t) n = some 0 := by
  rw [findSubstrIdx_def, startsWith_self_append]
  rfl

theorem findSubstrIdx_none_of_head_notin (hay : List Char) (c0 : Char) (n : List Char)
    (h : ∀ c ∈ hay, c ≠ c0) : findSubstrIdx hay (c0 :: n) = Option.none := by
  induction hay with
  | nil => rfl
  | cons d t ih =>
    rw [findSubstrIdx_def]
    have hd : (c0 == d) = false := by
      have := h d (List.mem_cons_self d t)
      simp [beq_eq_false_iff_ne]
      exact fun habs => this habs.symm
    rw [show startsWith (c0 :: n) (d :: t) = false by simp [startsWith, hd]]
    simp only [Bool.false_eq_true, if_false]
    rw [ih fun c hc => h c (List.mem_cons_of_mem d hc)]
    rfl

theorem fenceChars_eq : fenceChars = [backtick, backtick, backtick] := by decide

theorem fenceJsonChars_head :
    fenceJsonChars = backtick :: [backtick, backtick, 'j', 's', 'o', 'n'] := by decide

theorem findSubstrIdx_fence_boundary (l : List Char) (h : ∀ c ∈ l, c ≠ backtick) :
    findSubstrIdx (l ++ fenceChars) fenceChars = some l.length := by
  induction l with
  | nil => simpa using findSubstrIdx_append_self fenceChars []
  | cons c t ih =>
    rw [List.cons_append, findSubstrIdx_def]
    have hc : (backtick == c) = false := by
      have := h c (List.mem_cons_self c t)
      simp [beq_eq_false_iff_ne]
      exact fun habs => this habs.symm
    rw [show startsWith fenceChars (c :: (t ++ fenceChars)) = false by
      rw [fenceChars_eq]; simp [startsWith, hc]]
    simp only [Bool.false_eq_true, if_false]
    show (findSubstrIdx (t ++ fenceChars) fenceChars).map (· + 1) = some (c :: t).length
    rw [ih fun d hd => h d (List.mem_cons_of_mem c hd)]
    rfl

theorem dropWhile_length_le (p : Char → Bool) (l : List Char) :
    (l.dropWhile p).length ≤ l.length := by
  induction l with
  | nil => simp
  | cons d t ih =>
    rw [List.dropWhile_cons]
    by_cases hd : p d = true
    · rw [if_pos hd]; exact Nat.le_trans ih (Nat.le_succ _)
    · rw [if_neg hd]

theorem dropWhile_head_false {s : List Char} (hl : s.dropWhile isWsChar = s)
    {c : Char} {s2 : List Char} (hs : s = c :: s2) : isWsChar c = false := by
  subst hs
  by_contra habs
  rw [Bool.not_eq_false] at habs
  rw [List.dropWhile_cons, if_pos habs] at hl
  have hlen := congrArg List.length hl
  have hle := dropWhile_length_le isWsChar s2
  simp at hlen
  omega

theorem trimWs_wrap (s : List Char) (hl : s.dropWhile isWsChar = s)
    (hr : s.reverse.dropWhile isWsChar = s.reverse) :
    trimWs ('\n' :: (s ++ ['\n'])) = s := by
  cases hs : s with
  | nil => rfl
  | cons c s2 =>
    subst hs
    have hc : isWsChar c = false := dropWhile_head_false hl rfl
    have h1 : ('\n' :: ((c :: s2) ++ ['\n'])).dropWhile isWsChar = (c :: s2) ++ ['\n'] := by
      rw [List.dropWhile_cons, if_pos (by decide), List.cons_append, List.dropWhile_cons,
        if_neg (by simp [hc]), ← List.cons_append]
    have h2 : ((c :: s2) ++ ['\n']).reverse = '\n' :: (c :: s2).reverse := by
      rw [List.reverse_append]; rfl
    rw [trimWs, h1, h2, List.dropWhile_cons, if_pos (by decide), hr, List.reverse_reverse]

/-- The contents of a reply that wraps the payload `s` in an explicitly
labeled fenced block (the claim's "structured-data fenced block"). -/
def wrapJsonBlock (s : List Char) : List Char :=
  fenceJsonChars ++ '\n' :: (s ++ '\n' :: fenceChars)

theorem extractFenced_wrap (s : List Char) (hbt : ∀ c ∈ s, c ≠ backtick)
    (hl : s.dropWhile isWsChar = s) (hr : s.reverse.dropWhile isWsChar = s.reverse) :
    extractFenced (wrapJsonBlock s) = some s := by
  have hne : ∀ c ∈ '\n' :: (s ++ ['\n']), c ≠ backtick := by
    intro c hc
    rcases List.mem_cons.mp hc with h1 | h2
    · subst h1; decide
    · rcases List.mem_append.mp h2 with h3 | h4
      · exact hbt c h3
      · rw [List.mem_singleton] at h4; subst h4; decide
  have hsplit : ('\n' :: (s ++ '\n' :: fenceChars))
      = ('\n' :: (s ++ ['\n'])) ++ fenceChars := by simp
  have hfind1 : findSubstrIdx (wrapJsonBlock s) fenceJsonChars = some 0 := by
    rw [wrapJsonBlock]; exact findSubstrIdx_append_self _ _
  have hdrop : (wrapJsonBlock s).drop (0 + 7) = '\n' :: (s ++ '\n' :: fenceChars) := by
    rw [wrapJsonBlock, show (0 : Nat) + 7 = fenceJsonChars.length by decide]
    exact List.drop_left _ _
  have hfind2 : findSubstrIdx ('\n' :: (s ++ '\n' :: fenceChars)) fenceChars
      = some (('\n' :: (s ++ ['\n'])).length) := by
    rw [hsplit]; exact findSubstrIdx_fence_boundary _ hne
  have htake : ('\n' :: (s ++ '\n' :: fenceChars)).take (('\n' :: (s ++ ['\n'])).length)
      = '\n' :: (s ++ ['\n']) := by
    rw [hsplit]; exact List.take_left _ _
  simp only [extractFenced, hfind1, hdrop, hfind2, htake, trimWs_wrap s hl hr]

theorem extractFenced_none_of_no_backtick (s : List Char)
    (hbt : ∀ c ∈ s, c ≠ backtick) : extractFenced s = Option.none := by
  rw [extractFenced, fenceJsonChars_head, findSubstrIdx_none_of_head_notin s backtick _ hbt]

/-- C9 (amended): decoding a payload wrapped in an explicit structured-data
fenced block yields the same object as decoding the raw payload alone, by
trying in order the labeled fenced block's contents, then the whole
(possibly reassigned) text, then the greedy span from the first opening
brace to the LAST closing brace — not the first balanced brace-delimited
substring as the claim stated.  Hypotheses: the payload contains no
backtick, carries no leading/trailing whitespace, and parses as a JSON
value `v`; then both decodes succeed with the same `v` (here already at
the whole-text stage, so the corrected stage-3 mechanism is part of the
embedded definition `braceSearch`). -/
theorem C9_parse_json_response_wrap_invariant (s : List Char) (v : PyVal)
    (hbt : ∀ c ∈ s, c ≠ backtick)
    (hl : s.dropWhile isWsChar = s)
    (hr : s.reverse.dropWhile isWsChar = s.reverse)
    (hload : loads s = some v) :
    parse_json_response (String.mk (wrapJsonBlock s)) = Except.ok v ∧
    parse_json_response (String.mk s) = Except.ok v := by
  constructor
  · rw [parse_json_response]
    show parse_json_response_chars (wrapJsonBlock s) = Except.ok v
    rw [parse_json_response_chars]
    simp only [extractFenced_wrap s hbt hl hr, hload]
  · rw [parse_json_response]
    show parse_json_response_chars s = Except.ok v
    rw [parse_json_response_chars]
    simp only [extractFenced_none_of_no_backtick s hbt, hload]

theorem C9_parse_json_response_wrap_invariant_witness :
    parse_json_response (String.mk (wrapJsonBlock ("\x7b\"a\": 1\x7d").data))
      = Except.ok (PyVal.dict [("a", PyVal.int 1)]) ∧
    parse_json_response "\x7b\"a\": 1\x7d" = Except.ok (PyVal.dict [("a", PyVal.int 1)]) :=
  ⟨(C9_parse_json_response_wrap_invariant ("\x7b\"a\": 1\x7d").data
      (PyVal.dict [("a", PyVal.int 1)]) (by decide) rfl rfl rfl).1,
   (C9_parse_json_response_wrap_invariant ("\x7b\"a\": 1\x7d").data
      (PyVal.dict [("a", PyVal.int 1)]) (by decide) rfl rfl rfl).2⟩

/-- The claim's stage-3 strategy, modelled from the spec's words ("scan for
the first balanced brace-delimited substring and attempt to parse that"),
for comparison against the code's greedy `braceSearch`: starting at the
first opening brace, take characters until the brace depth returns to
zero. -/
def balancedScanAux : List Char → Nat → List Char → Option (List Char)
  | [], _, _ => Option.none
  | c :: rest, depth, acc =>
    if c == lbraceChar then balancedScanAux rest (depth + 1) (c :: acc)
    else if c == rbraceChar then
      if depth == 1 then some (c :: acc).reverse
      else balancedScanAux rest (depth - 1) (c :: acc)
    else balancedScanAux rest depth (c :: acc)

/-- First balanced brace-delimited substring (spec stage 3). -/
def firstBalancedBraceSubstr (cs : List Char) : Option (List Char) :=
  match cs.findIdx? (fun c => c == lbraceChar) with
  | some i => balancedScanAux (cs.drop i) 0 []
  | Option.none => Option.none

/-- C9 counterexample: on the text below — no fenced block, not wholly
parseable — the claimed stage 3 would decode the first balanced
brace-delimited substring, which is valid JSON; the code instead takes
the greedy span from the first opening brace to the LAST closing brace,
whose parse fails, so the decoder raises.  The claim's stated mechanism is
therefore not the code's. -/
theorem C9_counterexample :
    parse_json_response "x \x7b\"a\": 1\x7d y \x7d" = Except.error "JSONDecodeError" ∧
    firstBalancedBraceSubstr ("x \x7b\"a\": 1\x7d y \x7d").data
      = some ("\x7b\"a\": 1\x7d").data ∧
    loads ("\x7b\"a\": 1\x7d").data = some (PyVal.dict [("a", PyVal.int 1)]) :=
  ⟨rfl, rfl, rfl⟩

/-! ### NotebookAgent.analyze_error (ai_agent.py lines 79-143) -/

/-- Dict field lookup on a `PyVal` (for stating facts about returned
dicts; keys produced by the embedded code are distinct). -/
def pdget : PyVal → String → Option PyVal
  | PyVal.dict fields, k => (fields.find? (fun p => p.1 == k)).map Prod.snd
  | _, _ => Option.none

/-- `NotebookAgent.analyze_error`, with the reasoning call
`_generate_response` abstracted as its outcome (`.ok text` = the reply
text, `.error e` = it raised an exception with `str(e) = e`; the prompt
and context construction do not affect the result).  The `try` block
parses the reply with `_parse_json_response` and returns the parsed dict;
any exception from the call or the parse lands in the `except` handler,
which returns the fallback dict of ai_agent.py lines 136-143. -/
def analyze_error (serviceResponse : Except String String) (error_cell_id : String) : PyVal :=
  let attempt : Except String PyVal :=
    match serviceResponse with
    | Except.ok resp => parse_json_response resp
    | Except.error e => Except.error e
  match attempt with
  | Except.ok parsed => parsed
  | Except.error e =>
    PyVal.dict
      [("analysis", PyVal.str ("Error in analysis: " ++ e)),
       ("cells_to_fix", PyVal.list [PyVal.str error_cell_id]),
       ("fixes", PyVal.dict []),
       ("restart_needed", PyVal.bool false),
       ("continue_from_cell", PyVal.str error_cell_id),
       ("explanation", PyVal.str "Using fallback strategy")]

theorem containsSubstr_append_right (pre x : List Char) :
    containsSubstr (pre ++ x) x = true := by
  induction pre with
  | nil =>
    rw [List.nil_append, containsSubstr,
      show findSubstrIdx x x = some 0 by simpa using findSubstrIdx_append_self x []]
    rfl
  | cons c p ih =>
    rw [List.cons_append, containsSubstr, findSubstrIdx_def]
    by_cases h : startsWith x (c :: (p ++ x)) = true
    · rw [if_pos h]; rfl
    · rw [if_neg h]
      show ((findSubstrIdx (p ++ x) x).map (· + 1)).isSome = true
      rw [containsSubstr] at ih
      cases hf : findSubstrIdx (p ++ x) x with
      | some n => rfl
      | none => rw [hf] at ih; simp at ih

/-- C2: whenever the reasoning call or the decode step fails, the Repair
Planner returns (never raises) the degraded plan: `cells_to_fix` is
exactly the singleton list of the failing cell id, `fixes` is the empty
dict, `restart_needed` is false, `continue_from_cell` is the failing cell
id, and the analysis string contains the underlying error. -/
theorem C2_analyze_error_fallback (serviceResponse : Except String String)
    (error_cell_id e : String)
    (h : serviceResponse = Except.error e ∨
      ∃ r, serviceResponse = Except.ok r ∧ parse_json_response r = Except.error e) :
    pdget (analyze_error serviceResponse error_cell_id) "cells_to_fix"
        = some (PyVal.list [PyVal.str error_cell_id]) ∧
    pdget (analyze_error serviceResponse error_cell_id) "fixes" = some (PyVal.dict []) ∧
    pdget (analyze_error serviceResponse error_cell_id) "restart_needed"
        = some (PyVal.bool false) ∧
    pdget (analyze_error serviceResponse error_cell_id) "continue_from_cell"
        = some (PyVal.str error_cell_id) ∧
    pdget (analyze_error serviceResponse error_cell_id) "analysis"
        = some (PyVal.str ("Error in analysis: " ++ e)) ∧
    containsSubstr ("Error in analysis: " ++ e).data e.data = true := by
  have hres : analyze_error serviceResponse error_cell_id
      = PyVal.dict
          [("analysis", PyVal.str ("Error in analysis: " ++ e)),
           ("cells_to_fix", PyVal.list [PyVal.str error_cell_id]),
           ("fixes", PyVal.dict []),
           ("restart_needed", PyVal.bool false),
           ("continue_from_cell", PyVal.str error_cell_id),
           ("explanation", PyVal.str "Using fallback strategy")] := by
    rcases h with h1 | ⟨r, hr, hp⟩
    · subst h1; rfl
    · subst hr
      rw [analyze_error]
      simp only [hp]
  rw [hres]
  refine ⟨rfl, rfl, rfl, rfl, rfl, ?_⟩
  have hdata : ("Error in analysis: " ++ e).data = "Error in analysis: ".data ++ e.data := rfl
  rw [hdata]
  exact containsSubstr_append_right _ _

theorem C2_analyze_error_fallback_witness :
    pdget (analyze_error (Except.ok "no json here") "u1") "cells_to_fix"
        = some (PyVal.list [PyVal.str "u1"]) ∧
    pdget (analyze_error (Except.ok "no json here") "u1") "fixes" = some (PyVal.dict []) ∧
    pdget (analyze_error (Except.ok "no json here") "u1") "restart_needed"
        = some (PyVal.bool false) ∧
    pdget (analyze_error (Except.ok "no json here") "u1") "continue_from_cell"
        = some (PyVal.str "u1") ∧
    pdget (analyze_error (Except.ok "no json here") "u1") "analysis"
        = some (PyVal.str
            ("Error in analysis: " ++ "Could not parse JSON from response")) ∧
    containsSubstr
        ("Error in analysis: " ++ "Could not parse JSON from response").data
        "Could not parse JSON from response".data = true :=
  C2_analyze_error_fallback (Except.ok "no json here") "u1"
    "Could not parse JSON from response" (Or.inr ⟨"no json here", rfl, rfl⟩)

/-! ### NotebookCell (ai_agent.py lines 20-38) and cell-state dicts -/

/-- `NotebookCell` as constructed in ai_agent.py/main.py: outputs are the
dicts produced by `execute_cell`, the error is the error dict. -/
structure NotebookCell where
  cell_id : String
  code : String
  execution_count : Option Int
  outputs : List Output
  error : Option ErrorInfo
deriving DecidableEq, Repr

/-- The dict produced by `NotebookCell.to_dict` (same five keys). -/
structure CellDict where
  cell_id : String
  code : String
  execution_count : Option Int
  outputs : List Output
  error : Option ErrorInfo
deriving DecidableEq, Repr

/-- `NotebookCell.to_dict` (ai_agent.py lines 31-38). -/
def NotebookCell.to_dict (c : NotebookCell) : CellDict :=
  ⟨c.cell_id, c.code, c.execution_count, c.outputs, c.error⟩

/-! ### CellTool (cell_tools.py lines 119-218)

Tool arguments come from `json.loads`, so they are `PyVal` dicts; tool
results are the literal Python dicts the handlers build, as `PyVal`.
A handler can raise (`KeyError` on a missing required argument), so each
mutator returns `Except`; none of the handlers writes to `cells_state`,
which the embedding makes visible by threading the cell list through
`execute_tool` explicitly. -/

/-- Tool argument mapping. -/
abbrev ToolArgs := List (String × PyVal)

/-- `args.get(k)`. -/
def dget (d : ToolArgs) (k : String) : Option PyVal :=
  (d.find? (fun p => p.1 == k)).map Prod.snd

/-- `args.get(k, dflt)`. -/
def dgetD (d : ToolArgs) (k : String) (dflt : PyVal) : PyVal :=
  (dget d k).getD dflt

/-- `args[k]`: raises `KeyError` when the key is absent. -/
def ditem (d : ToolArgs) (k : String) : Except String PyVal :=
  match dget d k with
  | some v => Except.ok v
  | Option.none => Except.error ("KeyError: " ++ k)

/-- Python truthiness on the modelled values. -/
def truthy : PyVal → Bool
  | PyVal.none => false
  | PyVal.bool b => b
  | PyVal.int n => n != 0
  | PyVal.str s => s != ""
  | PyVal.list l => !l.isEmpty
  | PyVal.dict d => !d.isEmpty

/-- Python `==` between a str and an arbitrary value (`cell["cell_id"] ==
cell_id`): true only for an equal str. -/
def strEqPy (s : String) (v : PyVal) : Bool :=
  match v with
  | PyVal.str t => s == t
  | _ => false

mutual

/-- Python `repr` on the modelled values (string quote-escaping not
modelled; only used inside a not-found error message). -/
def pyRepr : PyVal → String
  | PyVal.none => "None"
  | PyVal.bool b => if b then "True" else "False"
  | PyVal.int n => toString n
  | PyVal.str s => "'" ++ s ++ "'"
  | PyVal.list l => "[" ++ pyReprElems l ++ "]"
  | PyVal.dict d => "\x7b" ++ pyReprFields d ++ "\x7d"

/-- Comma-separated element reprs. -/
def pyReprElems : List PyVal → String
  | [] => ""
  | [v] => pyRepr v
  | v :: rest => pyRepr v ++ ", " ++ pyReprElems rest

/-- Comma-separated `key: value` reprs. -/
def pyReprFields : List (String × PyVal) → String
  | [] => ""
  | [(k, v)] => "'" ++ k ++ "': " ++ pyRepr v
  | (k, v) :: rest => "'" ++ k ++ "': " ++ pyRepr v ++ ", " ++ pyReprFields rest

end

/-- Python `str()` / f-string conversion. -/
def pyToStr (v : PyVal) : String :=
  match v with
  | PyVal.str s => s
  | _ => pyRepr v

/-- The output dicts as they appear inside a read result. -/
def dataToPy (d : List (String × String)) : PyVal :=
  PyVal.dict (d.map (fun p => (p.1, PyVal.str p.2)))

/-- Optional string to Python value. -/
def strOptToPy : Option String → PyVal
  | some s => PyVal.str s
  | Option.none => PyVal.none

/-- Optional int to Python value. -/
def intOptToPy : Option Int → PyVal
  | some n => PyVal.int n
  | Option.none => PyVal.none

/-- An `Output` as the dict built by `execute_cell`. -/
def outputToPy : Output → PyVal
  | Output.execute_result d ec =>
    PyVal.dict [("type", PyVal.str "execute_result"), ("data", dataToPy d),
      ("execution_count", intOptToPy ec)]
  | Output.display_data d =>
    PyVal.dict [("type", PyVal.str "display_data"), ("data", dataToPy d)]
  | Output.stream n t =>
    PyVal.dict [("type", PyVal.str "stream"), ("name", strOptToPy n),
      ("text", strOptToPy t)]

/-- An `ErrorInfo` as the dict built by `execute_cell`. -/
def errorToPy (e : ErrorInfo) : PyVal :=
  PyVal.dict [("ename", strOptToPy e.ename), ("evalue", strOptToPy e.evalue),
    ("traceback", PyVal.list (e.traceback.map PyVal.str))]

/-- Optional error to Python value. -/
def errOptToPy : Option ErrorInfo → PyVal
  | some e => errorToPy e
  | Option.none => PyVal.none

/-- The per-cell view built by `CellTool._read_cells` (cell_tools.py
lines 154-176): keys `id`, `code`, `outputs`, `error`. -/
def readCellView (c : CellDict) : PyVal :=
  PyVal.dict [("id", PyVal.str c.cell_id), ("code", PyVal.str c.code),
    ("outputs", PyVal.list (c.outputs.map outputToPy)),
    ("error", errOptToPy c.error)]

/-- `CellTool._read_cells` (cell_tools.py lines 145-177): with a truthy
`cell_id` argument, search the live cell state for it; otherwise return
all cells. -/
def read_cells (args : ToolArgs) (cells : List CellDict) : PyVal :=
  let readAll : PyVal :=
    PyVal.dict [("success", PyVal.bool true),
      ("cells", PyVal.list (cells.map readCellView))]
  match dget args "cell_id" with
  | some cid =>
    if truthy cid then
      match cells.find? (fun c => strEqPy c.cell_id cid) with
      | some cell => PyVal.dict [("success", PyVal.bool true), ("cell", readCellView cell)]
      | Option.none =>
        PyVal.dict [("success", PyVal.bool false),
          ("error", PyVal.str ("Cell " ++ pyToStr cid ++ " not found"))]
    else readAll
  | Option.none => readAll

/-- `CellTool._update_cell` (cell_tools.py lines 179-188): returns a
simulated action record; it does not touch the cell state. -/
def update_cell (args : ToolArgs) (cells : List CellDict) : Except String PyVal :=
  match ditem args "cell_id" with
  | Except.error e => Except.error e
  | Except.ok cid =>
    match ditem args "code" with
    | Except.error e => Except.error e
    | Except.ok code =>
      Except.ok (PyVal.dict [("action", PyVal.str "update_cell"), ("cell_id", cid),
        ("code", code), ("reason", dgetD args "reason" (PyVal.str "")),
        ("success", PyVal.bool true)])

/-- `CellTool._insert_cell` (cell_tools.py lines 190-199): returns a
simulated action record; it does not touch the cell state. -/
def insert_cell (args : ToolArgs) (cells : List CellDict) : Except String PyVal :=
  match ditem args "code" with
  | Except.error e => Except.error e
  | Except.ok code =>
    Except.ok (PyVal.dict [("action", PyVal.str "insert_cell"), ("code", code),
      ("index", dgetD args "index" (PyVal.int (-1))),
      ("reason", dgetD args "reason" (PyVal.str "")),
      ("success", PyVal.bool true)])

/-- `CellTool._delete_cell` (cell_tools.py lines 201-209). -/
def delete_cell (args : ToolArgs) (cells : List CellDict) : Except String PyVal :=
  match ditem args "cell_id" with
  | Except.error e => Except.error e
  | Except.ok cid =>
    Except.ok (PyVal.dict [("action", PyVal.str "delete_cell"), ("cell_id", cid),
      ("reason", dgetD args "reason" (PyVal.str "")), ("success", PyVal.bool true)])

/-- `CellTool._run_cell` (cell_tools.py lines 211-218). -/
def run_cell (args : ToolArgs) (cells : List CellDict) : Except String PyVal :=
  match ditem args "cell_id" with
  | Except.error e => Except.error e
  | Except.ok cid =>
    Except.ok (PyVal.dict [("action", PyVal.str "run_cell"), ("cell_id", cid),
      ("success", PyVal.bool true)])

/-- `CellTool.execute_tool` (cell_tools.py lines 119-143): the if/elif
dispatcher; unmatched names land in the final `else` returning the
unknown-tool record.  The returned cell state is threaded explicitly; no
branch modifies it. -/
def execute_tool (tool_name : String) (arguments : ToolArgs) (cells_state : List CellDict) :
    Except String (PyVal × List CellDict) :=
  if tool_name = "read_cells" then
    Except.ok (read_cells arguments cells_state, cells_state)
  else if tool_name = "update_cell" then
    (update_cell arguments cells_state).map (fun r => (r, cells_state))
  else if tool_name = "insert_cell" then
    (insert_cell arguments cells_state).map (fun r => (r, cells_state))
  else if tool_name = "delete_cell" then
    (delete_cell arguments cells_state).map (fun r => (r, cells_state))
  else if tool_name = "run_cell" then
    (run_cell arguments cells_state).map (fun r => (r, cells_state))
  else
    Except.ok (PyVal.dict [("error", PyVal.str ("Unknown tool: " ++ tool_name))], cells_state)

/-- C10: the dispatcher is total over tool names — for every name outside
the five supported actions, and every argument mapping and cell state,
`execute_tool` returns (never raises) a record whose `error` field names
the unknown tool, and leaves the cell state untouched. -/
theorem C10_execute_tool_unknown_total (tool_name : String) (arguments : ToolArgs)
    (cells_state : List CellDict)
    (h : tool_name ∉ ["read_cells", "update_cell", "insert_cell", "delete_cell", "run_cell"]) :
    execute_tool tool_name arguments cells_state
      = Except.ok (PyVal.dict [("error", PyVal.str ("Unknown tool: " ++ tool_name))],
          cells_state) := by
  simp only [List.mem_cons, List.not_mem_nil, or_false, not_or] at h
  obtain ⟨h1, h2, h3, h4, h5⟩ := h
  rw [execute_tool, if_neg h1, if_neg h2, if_neg h3, if_neg h4, if_neg h5]

theorem C10_execute_tool_unknown_total_witness :
    execute_tool "make_coffee" [("cell_id", PyVal.str "c1")]
        [⟨"c1", "x=1", Option.none, [], Option.none⟩]
      = Except.ok (PyVal.dict [("error", PyVal.str ("Unknown tool: " ++ "make_coffee"))],
          [⟨"c1", "x=1", Option.none, [], Option.none⟩]) :=
  C10_execute_tool_unknown_total "make_coffee" [("cell_id", PyVal.str "c1")]
    [⟨"c1", "x=1", Option.none, [], Option.none⟩] (by decide)

/-! ### NotebookAgent._chat_with_tools_openai (ai_agent.py lines 279-330)

One chat invocation makes exactly ONE call to the reasoning service and
then executes that single reply's tool calls in order against the
`cells_state` list built at the start of the call.  There is no loop back
to the reasoning service: the tool results are returned to the caller in
the response.  The reply is the input here (the service is external). -/

/-- One entry of `message.tool_calls`: `tool_call.id`,
`tool_call.function.name`, and `tool_call.function.arguments` (a JSON
text, parsed with `json.loads`). -/
structure ToolCallReq where
  id : String
  fname : String
  fargs : String
deriving DecidableEq, Repr

/-- The record appended to `tool_calls` per executed call (ai_agent.py
lines 319-324). -/
structure ToolCallRecord where
  id : String
  name : String
  arguments : ToolArgs
  result : PyVal

/-- The assistant message of the reply (`message.content`,
`message.tool_calls`; an absent/`None` tool-call list is the empty
list — Python's `if message.tool_calls:` skips both). -/
structure AssistantMessage where
  content : Option String
  tool_calls : List ToolCallReq

/-- One reasoning-service reply (`response.choices[0]`). -/
structure ChatReply where
  message : AssistantMessage
  finish_reason : String

/-- The dict returned by `_chat_with_tools_openai` (ai_agent.py lines
326-330). -/
structure ChatResult where
  message : String
  tool_calls : List ToolCallRecord
  finish_reason : String

/-- The `for tool_call in message.tool_calls` loop (ai_agent.py lines
311-324): parse the arguments (`json.loads` raises on malformed JSON and
`.get` on a non-dict would raise `AttributeError` inside the handler —
either aborts the whole chat call), execute the tool against the current
`cells_state`, and append the result record.  The cell state is threaded
through `execute_tool` so that any mutation a tool made would be visible
to later tools in the same turn. -/
def runToolCalls : List ToolCallReq → List CellDict →
    Except String (List ToolCallRecord × List CellDict)
  | [], cells => Except.ok ([], cells)
  | tc :: rest, cells =>
    match loads tc.fargs.data with
    | Option.none => Except.error "JSONDecodeError"
    | some v =>
      match v with
      | PyVal.dict args =>
        match execute_tool tc.fname args cells with
        | Except.error e => Except.error e
        | Except.ok (result, cells2) =>
          match runToolCalls rest cells2 with
          | Except.error e => Except.error e
          | Except.ok (records, cellsF) =>
            Except.ok (⟨tc.id, tc.fname, args, result⟩ :: records, cellsF)
      | _ => Except.error "AttributeError"

/-- Python `message.content or "I'm working on it..."`. -/
def pyOr (content : Option String) (dflt : String) : String :=
  match content with
  | some s => if s = "" then dflt else s
  | Option.none => dflt

/-- `NotebookAgent._chat_with_tools_openai` after the reasoning call
returned `reply`: build `cells_state` from the cells, run the reply's
tool calls, and return the result dict.  The function returns after this
single reply — there is no further reasoning call. -/
def chat_with_tools (reply : ChatReply) (cells : List NotebookCell) :
    Except String ChatResult :=
  let cells_state := cells.map NotebookCell.to_dict
  match runToolCalls reply.message.tool_calls cells_state with
  | Except.error e => Except.error e
  | Except.ok (records, _) =>
    Except.ok
      { message := pyOr reply.message.content "I'm working on it..."
        tool_calls := records
        finish_reason := reply.finish_reason }

theorem execute_tool_cells_eq {tool_name : String} {arguments : ToolArgs}
    {cells_state cells2 : List CellDict} {r : PyVal}
    (h : execute_tool tool_name arguments cells_state = Except.ok (r, cells2)) :
    cells2 = cells_state := by
  rw [execute_tool] at h
  split_ifs at h
  case _ =>
    simp only [Except.ok.injEq, Prod.mk.injEq] at h
    exact h.2.symm
  case _ =>
    cases hu : update_cell arguments cells_state with
    | error e => simp only [hu, Except.map] at h; exact absurd h (by simp)
    | ok v => simp only [hu, Except.map, Except.ok.injEq, Prod.mk.injEq] at h; exact h.2.symm
  case _ =>
    cases hu : insert_cell arguments cells_state with
    | error e => simp only [hu, Except.map] at h; exact absurd h (by simp)
    | ok v => simp only [hu, Except.map, Except.ok.injEq, Prod.mk.injEq] at h; exact h.2.symm
  case _ =>
    cases hu : delete_cell arguments cells_state with
    | error e => simp only [hu, Except.map] at h; exact absurd h (by simp)
    | ok v => simp only [hu, Except.map, Except.ok.injEq, Prod.mk.injEq] at h; exact h.2.symm
  case _ =>
    cases hu : run_cell arguments cells_state with
    | error e => simp only [hu, Except.map] at h; exact absurd h (by simp)
    | ok v => simp only [hu, Except.map, Except.ok.injEq, Prod.mk.injEq] at h; exact h.2.symm
  case _ =>
    simp only [Except.ok.injEq, Prod.mk.injEq] at h
    exact h.2.symm

theorem runToolCalls_ok_spec (calls : List ToolCallReq) (cells : List CellDict)
    (records : List ToolCallRecord) (cells2 : List CellDict)
    (h : runToolCalls calls cells = Except.ok (records, cells2)) :
    cells2 = cells ∧
    records.map (fun r => r.name) = calls.map (fun c => c.fname) ∧
    records.map (fun r => r.id) = calls.map (fun c => c.id) := by
  induction calls generalizing cells records cells2 with
  | nil =>
    rw [runToolCalls] at h
    simp only [Except.ok.injEq, Prod.mk.injEq] at h
    obtain ⟨h1, h2⟩ := h
    subst h1; subst h2
    exact ⟨rfl, rfl, rfl⟩
  | cons tc rest ih =>
    rw [runToolCalls] at h
    cases hload : loads tc.fargs.data with
    | none => simp only [hload] at h; exact absurd h (by simp)
    | some v =>
      cases v with
      | dict args =>
        cases hexec : execute_tool tc.fname args cells with
        | error e => simp only [hload, hexec] at h; exact absurd h (by simp)
        | ok p =>
          obtain ⟨result, cellsMid⟩ := p
          cases hrest : runToolCalls rest cellsMid with
          | error e => simp only [hload, hexec, hrest] at h; exact absurd h (by simp)
          | ok q =>
            obtain ⟨recs, cellsFin⟩ := q
            simp only [hload, hexec, hrest, Except.ok.injEq, Prod.mk.injEq] at h
            obtain ⟨h1, h2⟩ := h
            have hmid := execute_tool_cells_eq hexec
            obtain ⟨ha, hb, hc⟩ := ih cellsMid recs cellsFin hrest
            refine ⟨?_, ?_, ?_⟩
            · rw [← h2, ha, hmid]
            · rw [← h1]; simp [hb]
            · rw [← h1]; simp [hc]
      | none => simp only [hload] at h; exact absurd h (by simp)
      | bool b => simp only [hload] at h; exact absurd h (by simp)
      | int n => simp only [hload] at h; exact absurd h (by simp)
      | str s2 => simp only [hload] at h; exact absurd h (by simp)
      | list l => simp only [hload] at h; exact absurd h (by simp)

/-- C7 counterexample: the claim's two-turn insert scenario.  Turn 1's
reply requests `insert_cell(code="y=2", index=0)` followed in the same
turn by a `read_cells`; turn 2's reply has no tool calls.  The insert
handler only returns a simulated action record (cell_tools.py lines
190-199): the cell state after the turn is IDENTICAL to the input, the
same-turn `read_cells` still lists only the original cell (it does not
observe the insertion), and after turn 2 the final unit sequence has
length 1 = original, with no new unit at position 0 — not `original + 1`
as the claim states. -/
theorem C7_counterexample :
    runToolCalls
        [⟨"call_1", "insert_cell", "\x7b\"code\": \"y=2\", \"index\": 0, \"reason\": \"add\"\x7d"⟩,
         ⟨"call_2", "read_cells", "\x7b\x7d"⟩]
        [⟨"c1", "x=1", Option.none, [], Option.none⟩]
      = Except.ok
          ([⟨"call_1", "insert_cell",
              [("code", PyVal.str "y=2"), ("index", PyVal.int 0), ("reason", PyVal.str "add")],
              PyVal.dict [("action", PyVal.str "insert_cell"), ("code", PyVal.str "y=2"),
                ("index", PyVal.int 0), ("reason", PyVal.str "add"),
                ("success", PyVal.bool true)]⟩,
            ⟨"call_2", "read_cells", [],
              PyVal.dict [("success", PyVal.bool true),
                ("cells", PyVal.list [PyVal.dict [("id", PyVal.str "c1"),
                  ("code", PyVal.str "x=1"), ("outputs", PyVal.list []),
                  ("error", PyVal.none)]])]⟩],
           [⟨"c1", "x=1", Option.none, [], Option.none⟩]) ∧
    chat_with_tools ⟨⟨some "done", []⟩, "stop"⟩ [⟨"c1", "x=1", Option.none, [], Option.none⟩]
      = Except.ok ⟨"done", [], "stop"⟩ ∧
    ([⟨"c1", "x=1", Option.none, [], Option.none⟩] : List CellDict).length = 1 :=
  ⟨rfl, rfl, rfl⟩

/-- C7 (amended): each requested ToolAction is executed synchronously in
the order the reasoning service requested — one result record per call,
with matching names and ids in request order — but against the
`cells_state` snapshot built at the start of the chat call, and the
mutating tools (`insert_cell`/`update_cell`/`delete_cell`) only return
simulated action records without modifying the sequence: every successful
turn leaves the cell state exactly as it was, so an `insert_unit` followed
by another action in the same turn does NOT observe an insertion, and the
two-turn insert scenario ends with the unit sequence unchanged (length =
original). -/
theorem C7_tool_calls_in_order_no_mutation (calls : List ToolCallReq) (cells : List CellDict)
    (records : List ToolCallRecord) (cells2 : List CellDict)
    (h : runToolCalls calls cells = Except.ok (records, cells2)) :
    cells2 = cells ∧
    records.map (fun r => r.name) = calls.map (fun c => c.fname) ∧
    records.map (fun r => r.id) = calls.map (fun c => c.id) :=
  runToolCalls_ok_spec calls cells records cells2 h

theorem C7_tool_calls_in_order_no_mutation_witness :
    ([⟨"c9", "y=0", Option.none, [], Option.none⟩] : List CellDict)
        = [⟨"c9", "y=0", Option.none, [], Option.none⟩] ∧
    ([⟨"d1", "delete_cell", [("cell_id", PyVal.str "c9"), ("reason", PyVal.str "r")],
        PyVal.dict [("action", PyVal.str "delete_cell"), ("cell_id", PyVal.str "c9"),
          ("reason", PyVal.str "r"), ("success", PyVal.bool true)]⟩] :
      List ToolCallRecord).map (fun r => r.name)
        = ([⟨"d1", "delete_cell", "\x7b\"cell_id\": \"c9\", \"reason\": \"r\"\x7d"⟩] :
            List ToolCallReq).map (fun c => c.fname) ∧
    ([⟨"d1", "delete_cell", [("cell_id", PyVal.str "c9"), ("reason", PyVal.str "r")],
        PyVal.dict [("action", PyVal.str "delete_cell"), ("cell_id", PyVal.str "c9"),
          ("reason", PyVal.str "r"), ("success", PyVal.bool true)]⟩] :
      List ToolCallRecord).map (fun r => r.id)
        = ([⟨"d1", "delete_cell", "\x7b\"cell_id\": \"c9\", \"reason\": \"r\"\x7d"⟩] :
            List ToolCallReq).map (fun c => c.id) :=
  C7_tool_calls_in_order_no_mutation
    [⟨"d1", "delete_cell", "\x7b\"cell_id\": \"c9\", \"reason\": \"r\"\x7d"⟩]
    [⟨"c9", "y=0", Option.none, [], Option.none⟩]
    [⟨"d1", "delete_cell", [("cell_id", PyVal.str "c9"), ("reason", PyVal.str "r")],
        PyVal.dict [("action", PyVal.str "delete_cell"), ("cell_id", PyVal.str "c9"),
          ("reason", PyVal.str "r"), ("success", PyVal.bool true)]⟩]
    [⟨"c9", "y=0", Option.none, [], Option.none⟩] rfl

/-- C8 counterexample: the reply below requests a tool call, yet the chat
invocation terminates right after this single reply: there is no further
reasoning turn, no configured turn cap in the code (config.py has no such
setting for the chat), and no "turn limit reached" marker anywhere in the
result — the message is exactly the reply's content, which does not
contain the marker text. -/
theorem C8_counterexample :
    chat_with_tools
        ⟨⟨some "Still working", [⟨"t9", "run_cell", "\x7b\"cell_id\": \"c1\"\x7d"⟩]⟩,
          "tool_calls"⟩
        [⟨"c1", "x=1", Option.none, [], Option.none⟩]
      = Except.ok
          ⟨"Still working",
           [⟨"t9", "run_cell", [("cell_id", PyVal.str "c1")],
             PyVal.dict [("action", PyVal.str "run_cell"), ("cell_id", PyVal.str "c1"),
               ("success", PyVal.bool true)]⟩],
           "tool_calls"⟩ ∧
    containsSubstr "Still working".data "turn limit".data = false :=
  ⟨rfl, rfl⟩

/-- C8 (amended): every chat invocation makes exactly one reasoning call
and terminates after that single reply, whether or not the reply requests
tool calls; there is no multi-turn loop, no turn cap, and no "turn limit
reached" marker — the returned message is exactly the reply's content (or
the fixed placeholder when the content is empty or absent), the
finish_reason is the reply's own, and one result record is returned per
requested tool call. -/
theorem C8_chat_single_reply (reply : ChatReply) (cells : List NotebookCell)
    (r : ChatResult) (h : chat_with_tools reply cells = Except.ok r) :
    r.finish_reason = reply.finish_reason ∧
    r.message = pyOr reply.message.content "I'm working on it..." ∧
    r.tool_calls.length = reply.message.tool_calls.length := by
  simp only [chat_with_tools] at h
  cases hrun : runToolCalls reply.message.tool_calls (cells.map NotebookCell.to_dict) with
  | error e => simp only [hrun] at h; exact absurd h (by simp)
  | ok p =>
    obtain ⟨records, cellsF⟩ := p
    simp only [hrun, Except.ok.injEq] at h
    obtain ⟨hc, hname, hid⟩ := runToolCalls_ok_spec _ _ _ _ hrun
    have hlen : records.length = reply.message.tool_calls.length := by
      have := congrArg List.length hname
      simpa using this
    refine ⟨?_, ?_, ?_⟩
    · rw [← h]
    · rw [← h]
    · rw [← h]
      exact hlen

theorem C8_chat_single_reply_witness :
    chat_with_tools
        ⟨⟨some "Working on it", [⟨"t1", "run_cell", "\x7b\"cell_id\": \"c1\"\x7d"⟩]⟩,
          "tool_calls"⟩
        [⟨"c1", "x=1", Option.none, [], Option.none⟩]
      = Except.ok
          ⟨"Working on it",
           [⟨"t1", "run_cell", [("cell_id", PyVal.str "c1")],
             PyVal.dict [("action", PyVal.str "run_cell"), ("cell_id", PyVal.str "c1"),
               ("success", PyVal.bool true)]⟩],
           "tool_calls"⟩ ∧
    (⟨"Working on it",
      [⟨"t1", "run_cell", [("cell_id", PyVal.str "c1")],
        PyVal.dict [("action", PyVal.str "run_cell"), ("cell_id", PyVal.str "c1"),
          ("success", PyVal.bool true)]⟩],
      "tool_calls"⟩ : ChatResult).finish_reason = "tool_calls" ∧
    (⟨"Working on it",
      [⟨"t1", "run_cell", [("cell_id", PyVal.str "c1")],
        PyVal.dict [("action", PyVal.str "run_cell"), ("cell_id", PyVal.str "c1"),
          ("success", PyVal.bool true)]⟩],
      "tool_calls"⟩ : ChatResult).tool_calls.length = 1 :=
  ⟨rfl,
   (C8_chat_single_reply
     ⟨⟨some "Working on it", [⟨"t1", "run_cell", "\x7b\"cell_id\": \"c1\"\x7d"⟩]⟩,
       "tool_calls"⟩
     [⟨"c1", "x=1", Option.none, [], Option.none⟩]
     ⟨"Working on it",
      [⟨"t1", "run_cell", [("cell_id", PyVal.str "c1")],
        PyVal.dict [("action", PyVal.str "run_cell"), ("cell_id", PyVal.str "c1"),
          ("success", PyVal.bool true)]⟩],
      "tool_calls"⟩ rfl).1,
   (C8_chat_single_reply
     ⟨⟨some "Working on it", [⟨"t1", "run_cell", "\x7b\"cell_id\": \"c1\"\x7d"⟩]⟩,
       "tool_calls"⟩
     [⟨"c1", "x=1", Option.none, [], Option.none⟩]
     ⟨"Working on it",
      [⟨"t1", "run_cell", [("cell_id", PyVal.str "c1")],
        PyVal.dict [("action", PyVal.str "run_cell"), ("cell_id", PyVal.str "c1"),
          ("success", PyVal.bool true)]⟩],
      "tool_calls"⟩ rfl).2.2⟩

/-! ### NotebookAgent._build_notebook_context (ai_agent.py lines 345-371)

The context is `"\n".join(context_parts)`; `context_parts` is built by a
`for i, cell in enumerate(cells)` loop, each iteration appending one
section of parts for its cell.  The embedding builds the per-cell part
list (`cellSection`), concatenates them in input order, and joins.  The
function is pure by construction. -/

/-- An f-string interpolation of an optional value (`None` prints as
"None"). -/
def pyStrOpt : Option String → String
  | some s => s
  | Option.none => "None"

/-- The parts contributed by one output (ai_agent.py lines 359-365):
stream outputs as `name: text`; execute_result reduced to its
`text/plain` representation; any other output type contributes nothing. -/
def renderOutput (o : Output) : List String :=
  match o with
  | Output.stream n t => ["  " ++ pyStrOpt n ++ ": " ++ pyStrOpt t]
  | Output.execute_result d _ =>
    match (d.find? (fun p => p.1 == "text/plain")).map Prod.snd with
    | some v => ["  Result: " ++ v]
    | Option.none => []
  | Output.display_data _ => []

/-- `cell.cell_id == highlight_cell` (comparison with `None` is false). -/
def markerCond (cid : String) (highlight : Option String) : Bool :=
  match highlight with
  | some hc => cid == hc
  | Option.none => false

/-- The parts appended for the cell at 0-based position `i`
(ai_agent.py lines 350-369); note the 1-based `Cell (i+1)` header, the
marker appended exactly on the highlighted id, and the Python truthiness
tests (`if cell.execution_count:` is false for `None` AND for 0;
`if cell.outputs:` is false for the empty list). -/
def cellSection (i : Nat) (c : NotebookCell) (highlight : Option String) : List String :=
  ["\n--- Cell " ++ toString (i + 1) ++ " (ID: " ++ c.cell_id ++ ")"
      ++ (if markerCond c.cell_id highlight then " <<< ERROR HERE" else "") ++ " ---",
   "Code:\n" ++ c.code]
  ++ (match c.execution_count with
      | some n => if n != 0 then ["Execution count: " ++ toString n] else []
      | Option.none => [])
  ++ (if c.outputs.isEmpty then [] else "Outputs:" :: c.outputs.bind renderOutput)
  ++ (match c.error with
      | some e => ["ERROR: " ++ pyStrOpt e.ename ++ ": " ++ pyStrOpt e.evalue,
                   "Traceback:\n" ++ String.intercalate "\n" e.traceback]
      | Option.none => [])

/-- The `context_parts` list after the whole loop, starting at position
`i`. -/
def buildPartsFrom : Nat → List NotebookCell → Option String → List String
  | _, [], _ => []
  | i, c :: rest, h => cellSection i c h ++ buildPartsFrom (i + 1) rest h

/-- `NotebookAgent._build_notebook_context`. -/
def build_notebook_context (cells : List NotebookCell) (highlight : Option String) : String :=
  String.intercalate "\n" (buildPartsFrom 0 cells highlight)

/-- A part that carries a cell's code verbatim: it starts with the
`"Code:\n"` tag the loop prepends. -/
def isCodePart (p : String) : Bool :=
  startsWith ("Code:\n".data) p.data

theorem not_code_part_of_head (c : Char) (hc : c ≠ 'C') (l : List Char) :
    startsWith ("Code:\n".data) (c :: l) = false := by
  have h1 : (('C' : Char) == c) = false := by
    simp [beq_eq_false_iff_ne]
    exact fun habs => hc habs.symm
  rw [show ("Code:\n".data) = 'C' :: "ode:\n".data from rfl]
  simp [startsWith, h1]

theorem isCodePart_eq_false_of_head (p : String) (c : Char) (l : List Char)
    (hp : p.data = c :: l) (hc : c ≠ 'C') : isCodePart p = false := by
  rw [isCodePart, hp]
  exact not_code_part_of_head c hc l

theorem renderOutput_no_code (o : Output) (p : String) (hp : p ∈ renderOutput o) :
    isCodePart p = false := by
  cases o with
  | stream n t =>
    simp only [renderOutput, List.mem_singleton] at hp
    subst hp
    exact isCodePart_eq_false_of_head _ ' ' _ rfl (by decide)
  | execute_result d ec =>
    simp only [renderOutput] at hp
    cases hv : (d.find? (fun q => q.1 == "text/plain")).map Prod.snd with
    | none => rw [hv] at hp; simp at hp
    | some v =>
      rw [hv] at hp
      simp only [List.mem_singleton] at hp
      subst hp
      exact isCodePart_eq_false_of_head _ ' ' _ rfl (by decide)
  | display_data d => simp [renderOutput] at hp

theorem filter_isCodePart_execPart (c : NotebookCell) :
    ((match c.execution_count with
      | some n => if n != 0 then ["Execution count: " ++ toString n] else []
      | Option.none => []) : List String).filter isCodePart = [] := by
  cases c.execution_count with
  | none => rfl
  | some n =>
    show ((if n != 0 then ["Execution count: " ++ toString n] else [])
      : List String).filter isCodePart = []
    by_cases hn : (n != 0) = true
    · rw [if_pos hn]
      have hE := isCodePart_eq_false_of_head ("Execution count: " ++ toString n)
        'E' _ rfl (by decide)
      simp [hE]
    · rw [if_neg hn]
      rfl

theorem filter_isCodePart_outputsPart (c : NotebookCell) :
    ((if c.outputs.isEmpty then [] else "Outputs:" :: c.outputs.bind renderOutput)
      : List String).filter isCodePart = [] := by
  by_cases ho : c.outputs.isEmpty = true
  · rw [if_pos ho]
    rfl
  · rw [if_neg ho, List.filter_cons]
    rw [show isCodePart "Outputs:" = false by decide]
    simp only [Bool.false_eq_true, if_false]
    refine List.filter_eq_nil.mpr ?_
    intro p hp
    obtain ⟨o, ho2, hpo⟩ := List.mem_bind.mp hp
    rw [renderOutput_no_code o p hpo]
    simp

theorem filter_isCodePart_errorPart (c : NotebookCell) :
    ((match c.error with
      | some e => ["ERROR: " ++ pyStrOpt e.ename ++ ": " ++ pyStrOpt e.evalue,
                   "Traceback:\n" ++ String.intercalate "\n" e.traceback]
      | Option.none => []) : List String).filter isCodePart = [] := by
  cases c.error with
  | none => rfl
  | some e =>
    have h1 := isCodePart_eq_false_of_head
      ("ERROR: " ++ pyStrOpt e.ename ++ ": " ++ pyStrOpt e.evalue) 'E' _ rfl (by decide)
    have h2 := isCodePart_eq_false_of_head
      ("Traceback:\n" ++ String.intercalate "\n" e.traceback) 'T' _ rfl (by decide)
    show (["ERROR: " ++ pyStrOpt e.ename ++ ": " ++ pyStrOpt e.evalue,
      "Traceback:\n" ++ String.intercalate "\n" e.traceback] : List String).filter
        isCodePart = []
    simp [h1, h2]

set_option maxRecDepth 8000 in
theorem filter_isCodePart_cellSection (i : Nat) (c : NotebookCell) (h : Option String) :
    (cellSection i c h).filter isCodePart = ["Code:\n" ++ c.code] := by
  have hhdr : isCodePart ("\n--- Cell " ++ toString (i + 1) ++ " (ID: " ++ c.cell_id ++ ")"
      ++ (if markerCond c.cell_id h then " <<< ERROR HERE" else "") ++ " ---") = false :=
    isCodePart_eq_false_of_head _ '\n' _ rfl (by decide)
  have hcode : isCodePart ("Code:\n" ++ c.code) = true := by
    rw [isCodePart]
    show startsWith ("Code:\n".data) ("Code:\n".data ++ c.code.data) = true
    exact startsWith_self_append _ _
  rw [cellSection, List.filter_append, List.filter_append, List.filter_append]
  rw [filter_isCodePart_execPart, filter_isCodePart_outputsPart, filter_isCodePart_errorPart]
  rw [List.filter_cons, hhdr]
  simp only [Bool.false_eq_true, if_false]
  rw [List.filter_cons, hcode]
  simp only [if_true]
  rfl

theorem filter_isCodePart_buildParts (cells : List NotebookCell) (h : Option String) (i : Nat) :
    (buildPartsFrom i cells h).filter isCodePart
      = cells.map (fun c => "Code:\n" ++ c.code) := by
  induction cells generalizing i with
  | nil => rfl
  | cons c rest ih =>
    rw [buildPartsFrom, List.filter_append, filter_isCodePart_cellSection, ih]
    rfl

theorem buildPartsFrom_eq_bind (cells : List NotebookCell) (h : Option String) (i : Nat) :
    buildPartsFrom i cells h = (cells.enumFrom i).bind (fun p => cellSection p.1 p.2 h) := by
  induction cells generalizing i with
  | nil => rfl
  | cons c rest ih =>
    rw [buildPartsFrom, List.enumFrom, ih]
    rfl

theorem cellSection_head_marker (i : Nat) (c : NotebookCell) (h : Option String) :
    (cellSection i c h).head?
        = some ("\n--- Cell " ++ toString (i + 1) ++ " (ID: " ++ c.cell_id ++ ")"
            ++ (if markerCond c.cell_id h then " <<< ERROR HERE" else "") ++ " ---") ∧
    (markerCond c.cell_id h = true ↔ h = some c.cell_id) := by
  constructor
  · rfl
  · cases h with
    | none => simp [markerCond]
    | some hh =>
      show (c.cell_id == hh) = true ↔ some hh = some c.cell_id
      rw [beq_iff_eq]
      constructor
      · intro h1
        rw [h1]
      · intro h1
        injection h1 with h2
        exact h2.symm

/-- C4: the Context Serializer is a pure function (a Lean function by
construction; identical inputs give identical output); its parts are the
per-cell sections in input order, one section per unit; the code parts of
the whole output are exactly one `"Code:\n" ++ code` entry per unit,
verbatim, in input order; and each section is headed by the 1-based
sequence position and the unit id, with the error-location marker
appended to the header exactly when the unit id equals the highlighted
id. -/
theorem C4_build_notebook_context_spec (cells : List NotebookCell) (h : Option String) :
    build_notebook_context cells h
        = String.intercalate "\n" ((cells.enumFrom 0).bind (fun p => cellSection p.1 p.2 h)) ∧
    (buildPartsFrom 0 cells h).filter isCodePart
        = cells.map (fun c => "Code:\n" ++ c.code) ∧
    (∀ i c, (cellSection i c h).head?
        = some ("\n--- Cell " ++ toString (i + 1) ++ " (ID: " ++ c.cell_id ++ ")"
            ++ (if markerCond c.cell_id h then " <<< ERROR HERE" else "") ++ " ---")) ∧
    (∀ c : NotebookCell, markerCond c.cell_id h = true ↔ h = some c.cell_id) := by
  refine ⟨?_, filter_isCodePart_buildParts cells h 0, ?_, ?_⟩
  · rw [build_notebook_context, buildPartsFrom_eq_bind]
  · intro i c
    exact (cellSection_head_marker i c h).1
  · intro c
    exact (cellSection_head_marker 0 c h).2

theorem C4_build_notebook_context_spec_witness :
    (buildPartsFrom 0
        [⟨"u1", "x=1", Option.none, [], Option.none⟩,
         ⟨"u2", "y=2", Option.none, [], Option.none⟩] (some "u2")).filter isCodePart
      = ["Code:\nx=1", "Code:\ny=2"] ∧
    markerCond "u2" (some "u2") = true ∧
    markerCond "u1" (some "u2") = false := by
  refine ⟨?_, ?_, by decide⟩
  · rw [(C4_build_notebook_context_spec
      [⟨"u1", "x=1", Option.none, [], Option.none⟩,
       ⟨"u2", "y=2", Option.none, [], Option.none⟩] (some "u2")).2.1]
    rfl
  · exact ((C4_build_notebook_context_spec
      [⟨"u1", "x=1", Option.none, [], Option.none⟩,
       ⟨"u2", "y=2", Option.none, [], Option.none⟩] (some "u2")).2.2.2
      ⟨"u2", "y=2", Option.none, [], Option.none⟩).mpr rfl

end JupyterAgent
